import Mathlib

/-!
Verification of the link parsing, classification and cursor-arithmetic core of
the obsidian-link-editor plugin.

Text is represented as a value of type List Char and a cursor offset as a Nat,
mirroring the single-line string plus 0-based character index interface of the
TypeScript code.  Functions present in the repository
(src/linkOperations.ts: determineLinkOperation, createEditOperation,
createNewLinkOperation, determineLinkOperationWithSelection,
determineSkipPosition) are translated directly from that file.  The helper
module src/utils.ts is absent from the snapshot (only its tests, callers and a
compiled precursor are present); every definition taken from it is marked
with a doc comment beginning with the words: Modelled from the spec.
-/

-- ===========================================================================
-- Character and string helpers
-- ===========================================================================

/-- Whitespace as removed by the JavaScript String.trim used in the sources
(the characters that actually occur in the relevant inputs). -/
def isSpaceChar (c : Char) : Bool :=
  c == ' ' || c == '\t' || c == '\n' || c == '\r'

/-- JavaScript String.trim on a character list. -/
def trimChars (cs : List Char) : List Char :=
  ((cs.dropWhile isSpaceChar).reverse.dropWhile isSpaceChar).reverse

/-- Case-insensitive test that the second list starts with the first,
mirroring a case-insensitive anchored regex against a literal. -/
def startsWithCI (p : List Char) (cs : List Char) : Bool :=
  decide ((cs.take p.length).map Char.toLower = p.map Char.toLower)

/-- True when no character of the list is whitespace. -/
def noWs (cs : List Char) : Bool :=
  !(cs.any isSpaceChar)

-- ===========================================================================
-- URL classifier (src/utils.ts, absent from the snapshot)
-- ===========================================================================

/-- Modelled from the spec: isUrl from the missing src/utils.ts.  True iff the
trimmed input matches the case-insensitive regex for a full http, https or
www form with no whitespace after the marker (spec section 4.1; the compiled
precursor uses the same regex literally). -/
def isUrl (cs : List Char) : Bool :=
  let t := trimChars cs
  noWs t &&
    ((startsWithCI ("http://".toList) t && decide (7 < t.length))
      || (startsWithCI ("https://".toList) t && decide (8 < t.length))
      || (startsWithCI ("www.".toList) t && decide (4 < t.length)))

/-- Modelled from the spec: normalizeUrl from the missing src/utils.ts (the
compiled precursor contains the identical logic inline): trim; keep http and
https forms unchanged; put https in front of a www form; otherwise return
the trimmed input. -/
def normalizeUrl (cs : List Char) : List Char :=
  let t := trimChars cs
  if startsWithCI ("http://".toList) t || startsWithCI ("https://".toList) t then t
  else if startsWithCI ("www.".toList) t then ("https://".toList) ++ t
  else t

/-- ASCII letter, digit or dash, the character class of the almost-URL regex. -/
def isAlphaNumDash (c : Char) : Bool :=
  c.isAlpha || c.isDigit || c == '-'

/-- Modelled from the spec: isAlmostUrl from the missing src/utils.ts,
following the typo-pattern regex that appears literally in the compiled
precursor: htp, htps, a single slash after http, a missing colon after
https, or a bare www label. -/
def isAlmostUrl (cs : List Char) : Bool :=
  let t := trimChars cs
  startsWithCI ("htp://".toList) t
    || startsWithCI ("htps://".toList) t
    || (startsWithCI ("http:/".toList) t &&
          (match t.drop 6 with
            | c :: _ => c != '/'
            | [] => false))
    || startsWithCI ("https//".toList) t
    || (startsWithCI ("www.".toList) t && decide (4 < t.length)
          && (t.drop 4).all isAlphaNumDash)

-- ===========================================================================
-- URL scanning (urlAtCursor, src/utils.ts, absent from the snapshot)
-- ===========================================================================

/-- A URL token found in a line: start offset and length. -/
structure UrlTok where
  start : Nat
  len : Nat
deriving DecidableEq

/-- Length of the URL token starting exactly at the head of the list, if any:
an http, https or www marker followed greedily by at least one
non-whitespace character. -/
def urlTokAt (cs : List Char) : Option Nat :=
  let pLen : Option Nat :=
    if startsWithCI ("https://".toList) cs then some 8
    else if startsWithCI ("http://".toList) cs then some 7
    else if startsWithCI ("www.".toList) cs then some 4
    else none
  match pLen with
  | some p =>
      let tail := (cs.drop p).takeWhile (fun c => !isSpaceChar c)
      if tail.length > 0 then some (p + tail.length) else none
  | none => none

/-- Left-to-right non-overlapping scan for URL tokens; the first argument is
fuel (one unit per character suffices), the second the absolute offset of the
head of the list. -/
def urlScanAux : Nat → Nat → List Char → List UrlTok
  | 0, _, _ => []
  | _ + 1, _, [] => []
  | fuel + 1, i, c :: rest =>
      match urlTokAt (c :: rest) with
      | some l => ⟨i, l⟩ :: urlScanAux fuel (i + l) ((c :: rest).drop l)
      | none => urlScanAux fuel (i + 1) rest

/-- All URL tokens of a line, leftmost first, non-overlapping. -/
def urlScan (cs : List Char) : List UrlTok :=
  urlScanAux (cs.length + 1) 0 cs

/-- Modelled from the spec: the span (inclusive containment bounds) of the URL
at the cursor, used by urlAtCursor and by the new-link synthesizer for the
replacement range. -/
def urlSpanAtCursor (line : List Char) (ch : Nat) : Option UrlTok :=
  (urlScan line).find? (fun t => decide (t.start ≤ ch) && decide (ch ≤ t.start + t.len))

/-- Modelled from the spec: urlAtCursor from the missing src/utils.ts: the
text of the URL whose span contains the cursor offset, else none. -/
def urlAtCursor (line : List Char) (ch : Nat) : Option (List Char) :=
  (urlSpanAtCursor line ch).map (fun t => (line.drop t.start).take t.len)

-- ===========================================================================
-- Link data model (src/types.ts)
-- ===========================================================================

/-- One link in either notation (src/types.ts LinkInfo). -/
structure LinkInfo where
  text : List Char
  destination : List Char
  isWiki : Bool
  isEmbed : Bool
deriving DecidableEq

-- ===========================================================================
-- Link scanning and detection (detectLinkAtCursor, src/utils.ts, absent)
-- ===========================================================================

/-- A link token found by a scan: start offset, total length of the matched
syntax, embed marker, display text and destination. -/
structure LTok where
  start : Nat
  len : Nat
  isEmbed : Bool
  text : List Char
  dest : List Char
deriving DecidableEq

/-- The body of a markdown link after its opening bracket: display text made
of non-bracket characters, a closing bracket, an opening parenthesis, a
non-empty destination of non-parenthesis characters and the closing
parenthesis.  Returns text, destination and the number of characters
consumed from after the opening bracket through the closing parenthesis. -/
def mdBodyAt (cs : List Char) : Option (List Char × List Char × Nat) :=
  let text := cs.takeWhile (fun c => c != ']')
  match cs.drop text.length with
  | ']' :: '(' :: r2 =>
      let dest := r2.takeWhile (fun c => c != ')')
      if dest.length = 0 then none
      else
        match r2.drop dest.length with
        | ')' :: _ => some (text, dest, text.length + 2 + dest.length + 1)
        | _ => none
  | _ => none

/-- A markdown-link match starting exactly at the head of the list, following
the regex with an optional embed marker, a bracketed possibly-empty display
text and a parenthesised non-empty destination.  Returns embed flag, text,
destination and total match length. -/
def mdMatchAt (cs : List Char) : Option (Bool × List Char × List Char × Nat) :=
  match cs with
  | '!' :: '[' :: rest => (mdBodyAt rest).map (fun p => (true, p.1, p.2.1, p.2.2 + 2))
  | '[' :: rest => (mdBodyAt rest).map (fun p => (false, p.1, p.2.1, p.2.2 + 1))
  | _ => none

/-- Left-to-right non-overlapping scan for markdown links (fuel, offset). -/
def mdScanAux : Nat → Nat → List Char → List LTok
  | 0, _, _ => []
  | _ + 1, _, [] => []
  | fuel + 1, i, c :: rest =>
      match mdMatchAt (c :: rest) with
      | some m => ⟨i, m.2.2.2, m.1, m.2.1, m.2.2.1⟩ ::
          mdScanAux fuel (i + m.2.2.2) ((c :: rest).drop m.2.2.2)
      | none => mdScanAux fuel (i + 1) rest

/-- All markdown-link matches of a line, leftmost first, non-overlapping. -/
def mdScan (cs : List Char) : List LTok :=
  mdScanAux (cs.length + 1) 0 cs

/-- The body of a wiki link after its opening double bracket: a non-empty
destination of characters that are neither a closing bracket nor a pipe,
optionally a pipe and a non-empty display text of non-bracket characters,
then the closing double bracket.  Returns destination, display text
(defaulting to the destination) and the number of characters consumed. -/
def wikiBodyAt (cs : List Char) : Option (List Char × List Char × Nat) :=
  let dest := cs.takeWhile (fun c => c != ']' && c != '|')
  if dest.length = 0 then none
  else
    match cs.drop dest.length with
    | ']' :: ']' :: _ => some (dest, dest, dest.length + 2)
    | '|' :: r2 =>
        let disp := r2.takeWhile (fun c => c != ']')
        if disp.length = 0 then none
        else
          match r2.drop disp.length with
          | ']' :: ']' :: _ => some (dest, disp, dest.length + 1 + disp.length + 2)
          | _ => none
    | _ => none

/-- A wiki-link match starting exactly at the head of the list, with an
optional embed marker before the opening double bracket. -/
def wikiMatchAt (cs : List Char) : Option (Bool × List Char × List Char × Nat) :=
  match cs with
  | '!' :: '[' :: '[' :: rest => (wikiBodyAt rest).map (fun p => (true, p.2.1, p.1, p.2.2 + 3))
  | '[' :: '[' :: rest => (wikiBodyAt rest).map (fun p => (false, p.2.1, p.1, p.2.2 + 2))
  | _ => none

/-- Left-to-right non-overlapping scan for wiki links (fuel, offset). -/
def wikiScanAux : Nat → Nat → List Char → List LTok
  | 0, _, _ => []
  | _ + 1, _, [] => []
  | fuel + 1, i, c :: rest =>
      match wikiMatchAt (c :: rest) with
      | some m => ⟨i, m.2.2.2, m.1, m.2.1, m.2.2.1⟩ ::
          wikiScanAux fuel (i + m.2.2.2) ((c :: rest).drop m.2.2.2)
      | none => wikiScanAux fuel (i + 1) rest

/-- All wiki-link matches of a line, leftmost first, non-overlapping. -/
def wikiScan (cs : List Char) : List LTok :=
  wikiScanAux (cs.length + 1) 0 cs

/-- Inclusive containment of a cursor offset in a token span. -/
def containsCh (ch : Nat) (t : LTok) : Bool :=
  decide (t.start ≤ ch) && decide (ch ≤ t.start + t.len)

/-- The result of detecting a link under the cursor (src/utils.ts
LinkAtCursor).  The source field named end is called endPos here because
end is a reserved word in Lean. -/
structure LinkAtCursor where
  link : LinkInfo
  start : Nat
  endPos : Nat
  enteredFromLeft : Bool
deriving DecidableEq

/-- Modelled from the spec: detectLinkAtCursor from the missing src/utils.ts
(spec section 4.3): scan for markdown links first and return the first match
whose span contains the cursor inclusively, with enteredFromLeft when the
cursor is at or just past the opening bracket; only if no markdown match
contains the cursor, do the same for wiki links with the two-character
opening; otherwise none. -/
def detectLinkAtCursor (line : List Char) (ch : Nat) : Option LinkAtCursor :=
  match (mdScan line).find? (containsCh ch) with
  | some t =>
      some ⟨⟨t.text, t.dest, false, t.isEmbed⟩, t.start, t.start + t.len,
        decide (ch ≤ t.start + 1)⟩
  | none =>
      match (wikiScan line).find? (containsCh ch) with
      | some t =>
          some ⟨⟨t.text, t.dest, true, t.isEmbed⟩, t.start, t.start + t.len,
            decide (ch ≤ t.start + 2)⟩
      | none => none

-- ===========================================================================
-- Link syntax codec (src/utils.ts, absent from the snapshot)
-- ===========================================================================

/-- Percent-encoding of one character for a markdown destination: space and
caret are encoded, every other character is kept. -/
def encodeWikiChar (c : Char) : List Char :=
  if c = ' ' then ['%', '2', '0']
  else if c = '^' then ['%', '5', 'E']
  else [c]

/-- Modelled from the spec: the percent-encoding direction of the codec,
applied characterwise. -/
def percentEncode (cs : List Char) : List Char :=
  cs.flatMap encodeWikiChar

/-- Modelled from the spec: the percent-decoding direction of the codec: a
left-to-right scan replacing the encoded space and caret sequences. -/
def percentDecode : List Char → List Char
  | '%' :: '2' :: '0' :: rest => ' ' :: percentDecode rest
  | '%' :: '5' :: 'E' :: rest => '^' :: percentDecode rest
  | c :: rest => c :: percentDecode rest
  | [] => []

/-- True when the list begins with one of the encoded sequences handled by
the codec. -/
def startsEnc : List Char → Bool
  | '%' :: '2' :: '0' :: _ => true
  | '%' :: '5' :: 'E' :: _ => true
  | _ => false

/-- True when the list contains one of the encoded sequences handled by the
codec (used to state the round-trip law exactly as the spec does). -/
def hasEncSeq : List Char → Bool
  | [] => false
  | c :: rest => startsEnc (c :: rest) || hasEncSeq rest

/-- Modelled from the spec: wikiToMarkdown from the missing src/utils.ts:
URLs pass through unchanged, any other destination is percent-encoded. -/
def wikiToMarkdown (s : List Char) : List Char :=
  if isUrl s then s else percentEncode s

/-- Modelled from the spec: markdownToWiki from the missing src/utils.ts:
none for a URL (cannot be represented as a wiki destination), otherwise the
percent-decoded destination. -/
def markdownToWiki (s : List Char) : Option (List Char) :=
  if isUrl s then none else some (percentDecode s)

-- ===========================================================================
-- Whole-string link parsing (src/utils.ts, absent from the snapshot)
-- ===========================================================================

/-- The remainder of a wiki link after the opening double bracket, required
to be consumed completely. -/
def parseWikiCore (cs : List Char) : Option (List Char × List Char) :=
  match wikiBodyAt cs with
  | some (d, t, l) => if cs.length = l then some (d, t) else none
  | none => none

/-- Modelled from the spec: parseWikiLink from the missing src/utils.ts: the
whole trimmed string must be exactly one wiki link, optionally with an embed
marker; destination and display text are trimmed, the text defaulting to the
destination; none on structural mismatch. -/
def parseWikiLink (s : List Char) : Option LinkInfo :=
  match trimChars s with
  | '!' :: '[' :: '[' :: rest =>
      (parseWikiCore rest).map (fun p => ⟨trimChars p.2, trimChars p.1, true, true⟩)
  | '[' :: '[' :: rest =>
      (parseWikiCore rest).map (fun p => ⟨trimChars p.2, trimChars p.1, true, false⟩)
  | _ => none

/-- The remainder of a markdown link after the opening bracket, required to
be consumed completely. -/
def parseMdCore (cs : List Char) : Option (List Char × List Char) :=
  match mdBodyAt cs with
  | some (t, d, l) => if cs.length = l then some (t, d) else none
  | none => none

/-- Modelled from the spec: parseMarkdownLink from the missing src/utils.ts:
the whole trimmed string must be exactly one markdown link, optionally with
an embed marker; text and destination are trimmed; none on structural
mismatch. -/
def parseMarkdownLink (s : List Char) : Option LinkInfo :=
  match trimChars s with
  | '!' :: '[' :: rest =>
      (parseMdCore rest).map (fun p => ⟨trimChars p.1, trimChars p.2, false, true⟩)
  | '[' :: rest =>
      (parseMdCore rest).map (fun p => ⟨trimChars p.1, trimChars p.2, false, false⟩)
  | _ => none

/-- Modelled from the spec: parseClipboardLink from the missing src/utils.ts:
try parseMarkdownLink then parseWikiLink on the entire trimmed string. -/
def parseClipboardLink (s : List Char) : Option LinkInfo :=
  (parseMarkdownLink s).orElse (fun _ => parseWikiLink s)

-- ===========================================================================
-- New-link synthesizer (determineLinkFromContext, src/utils.ts, absent)
-- ===========================================================================

/-- The input of the new-link synthesizer (src/utils.ts LinkFromContext
argument): selection, clipboard text, URL found at the cursor, line text and
cursor offset. -/
structure LinkContextInput where
  selection : List Char
  clipboardText : List Char
  cursorUrl : Option (List Char)
  line : List Char
  cursorCh : Nat
deriving DecidableEq

/-- The output of the new-link synthesizer.  The source field named end is
called endPos here because end is a reserved word in Lean. -/
structure LinkFromContext where
  text : List Char
  destination : List Char
  isWiki : Bool
  start : Nat
  endPos : Nat
  shouldSelectText : Bool
  conversionNotice : Option (List Char)
deriving DecidableEq

/-- The clipboard-conversion notice, set only when normalization changed the
string (text taken from the compiled precursor). -/
def convNotice (original normalized : List Char) : Option (List Char) :=
  if original = normalized then none
  else some (("✓ URL converted: ".toList) ++ original ++ (" → ".toList) ++ normalized)

/-- Modelled from the spec: determineLinkFromContext from the missing
src/utils.ts (spec section 4.4), the six-rule precedence chain of the
new-link synthesizer, first matching rule winning:
1. the selection is itself a URL;
2. the selection is non-empty, non-URL text, destination from clipboard;
3. no selection but a URL at the cursor, range being the URL span;
4. the clipboard holds a whole wiki or markdown link;
5. the clipboard is a bare URL;
6. fallback: empty text, clipboard as wiki destination. -/
def determineLinkFromContext (ctx : LinkContextInput) : LinkFromContext :=
  if isUrl ctx.selection then
    let original := trimChars ctx.selection
    let normalized := normalizeUrl original
    ⟨original, normalized, false, ctx.cursorCh, ctx.cursorCh, true,
      convNotice original normalized⟩
  else if !ctx.selection.isEmpty then
    if isUrl ctx.clipboardText then
      let normalized := normalizeUrl ctx.clipboardText
      ⟨ctx.selection, normalized, false, ctx.cursorCh, ctx.cursorCh, false,
        convNotice ctx.clipboardText normalized⟩
    else
      ⟨ctx.selection, ctx.clipboardText, true, ctx.cursorCh, ctx.cursorCh, false, none⟩
  else
    match ctx.cursorUrl with
    | some u =>
        let normalized := normalizeUrl u
        let span : Nat × Nat :=
          match urlSpanAtCursor ctx.line ctx.cursorCh with
          | some t => (t.start, t.start + t.len)
          | none => (ctx.cursorCh, ctx.cursorCh)
        ⟨normalized, normalized, false, span.1, span.2, true,
          convNotice (trimChars u) normalized⟩
    | none =>
        match parseClipboardLink ctx.clipboardText with
        | some pl =>
            ⟨pl.text, pl.destination, pl.isWiki, ctx.cursorCh, ctx.cursorCh, false, none⟩
        | none =>
            if isUrl ctx.clipboardText then
              let normalized := normalizeUrl ctx.clipboardText
              ⟨normalized, normalized, false, ctx.cursorCh, ctx.cursorCh, true,
                convNotice ctx.clipboardText normalized⟩
            else
              ⟨[], ctx.clipboardText, true, ctx.cursorCh, ctx.cursorCh, false, none⟩

-- ===========================================================================
-- Link operations (src/linkOperations.ts, translated directly)
-- ===========================================================================

/-- src/linkOperations.ts EditorContext. -/
structure EditorContext where
  cursorLine : Nat
  cursorCh : Nat
  lineText : List Char
  selection : List Char
  clipboardText : List Char
deriving DecidableEq

/-- src/linkOperations.ts LinkOperation.  The source field named end is
called endPos here because end is a reserved word in Lean. -/
structure LinkOperation where
  link : LinkInfo
  start : Nat
  endPos : Nat
  enteredFromLeft : Bool
  isNewLink : Bool
  shouldSelectText : Bool
  conversionNotice : Option (List Char)
deriving DecidableEq

/-- src/linkOperations.ts createEditOperation. -/
def createEditOperation (existingLink : LinkAtCursor) : LinkOperation :=
  ⟨existingLink.link, existingLink.start, existingLink.endPos,
    existingLink.enteredFromLeft, false, false, none⟩

/-- src/linkOperations.ts createNewLinkOperation. -/
def createNewLinkOperation (lineText : List Char) (cursorCh : Nat)
    (selection clipboardText : List Char) : LinkOperation :=
  let cursorUrl := urlAtCursor lineText cursorCh
  let linkContext := determineLinkFromContext
    ⟨selection, clipboardText, cursorUrl, lineText, cursorCh⟩
  let link : LinkInfo := ⟨linkContext.text, linkContext.destination, linkContext.isWiki, false⟩
  let se : Nat × Nat :=
    if !selection.isEmpty then (cursorCh, cursorCh)
    else if cursorUrl.isSome then (linkContext.start, linkContext.endPos)
    else (cursorCh, cursorCh)
  ⟨link, se.1, se.2, true, true, linkContext.shouldSelectText, linkContext.conversionNotice⟩

/-- src/linkOperations.ts determineLinkOperation.  The TypeScript return
type admits null but no branch produces it, so the translation is total. -/
def determineLinkOperation (context : EditorContext) : LinkOperation :=
  match detectLinkAtCursor context.lineText context.cursorCh with
  | some existingLink => createEditOperation existingLink
  | none => createNewLinkOperation context.lineText context.cursorCh
      context.selection context.clipboardText

/-- src/linkOperations.ts EditorContextWithSelection. -/
structure EditorContextWithSelection extends EditorContext where
  selectionFrom : Option (Nat × Nat)
  selectionTo : Option (Nat × Nat)
  hasSelection : Bool
deriving DecidableEq

/-- src/linkOperations.ts determineLinkOperationWithSelection. -/
def determineLinkOperationWithSelection (context : EditorContextWithSelection) : LinkOperation :=
  match detectLinkAtCursor context.lineText context.cursorCh with
  | some existingLink => createEditOperation existingLink
  | none =>
      let cursorUrl := urlAtCursor context.lineText context.cursorCh
      let linkContext := determineLinkFromContext
        ⟨context.selection, context.clipboardText, cursorUrl, context.lineText, context.cursorCh⟩
      let link : LinkInfo := ⟨linkContext.text, linkContext.destination, linkContext.isWiki, false⟩
      let se : Nat × Nat :=
        match context.hasSelection, context.selectionFrom, context.selectionTo with
        | true, some f, some t => (f.2, t.2)
        | _, _, _ =>
            if cursorUrl.isSome then (linkContext.start, linkContext.endPos)
            else (context.cursorCh, context.cursorCh)
      ⟨link, se.1, se.2, true, true, linkContext.shouldSelectText, linkContext.conversionNotice⟩

-- ===========================================================================
-- Skip / close position calculator (src/linkOperations.ts, translated)
-- ===========================================================================

/-- src/linkOperations.ts SkipLinkContext. -/
structure SkipLinkContext where
  cursorLine : Nat
  cursorCh : Nat
  lineText : List Char
  lineCount : Nat
  prevLineLength : Nat
deriving DecidableEq

/-- src/linkOperations.ts SkipLinkResult; position is the pair (line, ch). -/
structure SkipLinkResult where
  position : Nat × Nat
  skipped : Bool
deriving DecidableEq

/-- The side classification of src/linkOperations.ts determineSkipPosition:
the source computes cursorCh less-or-equal (start + end) / 2 over JavaScript
floats, which for natural inputs is exactly 2 * cursorCh less-or-equal
start + end. -/
def skipIsOnLeftSide (start endPos cursorCh : Nat) : Bool :=
  decide (2 * cursorCh ≤ start + endPos)

/-- src/linkOperations.ts determineSkipPosition, translated branch for
branch. -/
def determineSkipPosition (context : SkipLinkContext) : SkipLinkResult :=
  match detectLinkAtCursor context.lineText context.cursorCh with
  | none => ⟨(context.cursorLine, context.cursorCh), false⟩
  | some existingLink =>
      let start := existingLink.start
      let stop := existingLink.endPos
      let isOnLeftSide := skipIsOnLeftSide start stop context.cursorCh
      if start = 0 ∧ context.lineText.length ≤ stop then
        if isOnLeftSide then
          if context.cursorLine + 1 < context.lineCount then
            ⟨(context.cursorLine + 1, 0), true⟩
          else if 0 < context.cursorLine then
            ⟨(context.cursorLine - 1, context.prevLineLength), true⟩
          else ⟨(context.cursorLine, stop), true⟩
        else
          if 0 < context.cursorLine then
            ⟨(context.cursorLine - 1, context.prevLineLength), true⟩
          else if context.cursorLine + 1 < context.lineCount then
            ⟨(context.cursorLine + 1, 0), true⟩
          else ⟨(context.cursorLine, 0), true⟩
      else
        if isOnLeftSide then
          if stop < context.lineText.length then
            ⟨(context.cursorLine, stop + 1), true⟩
          else if context.cursorLine + 1 < context.lineCount then
            ⟨(context.cursorLine + 1, 0), true⟩
          else if 0 < start then
            ⟨(context.cursorLine, start - 1), true⟩
          else ⟨(context.cursorLine, stop), true⟩
        else
          if 0 < start then
            ⟨(context.cursorLine, start - 1), true⟩
          else if 0 < context.cursorLine then
            ⟨(context.cursorLine - 1, context.prevLineLength), true⟩
          else if stop < context.lineText.length then
            ⟨(context.cursorLine, stop + 1), true⟩
          else ⟨(context.cursorLine, 0), true⟩

-- ===========================================================================
-- Link validator (validateLinkDestination, src/utils.ts, absent)
-- ===========================================================================

/-- Warning severity of the validator. -/
inductive Severity where
  | error
  | caution
deriving DecidableEq

/-- One warning produced by the validator. -/
structure LinkWarning where
  text : List Char
  severity : Severity
deriving DecidableEq

/-- The validator result.  shouldHighlightDest mirrors the highlighting the
modal applies when any warning is present. -/
structure ValidationResult where
  isValid : Bool
  warnings : List LinkWarning
  shouldHighlightDest : Bool
  shouldHighlightText : Bool
deriving DecidableEq

/-- The forbidden characters of a wiki filename. -/
def forbiddenWikiChar (c : Char) : Bool :=
  c == '|' || c == '^' || c == ':' || c == '*' || c == '"' || c == '?' || c == '\\' || c == '/'

/-- Modelled from the spec: isValidWikiLink from the missing src/utils.ts:
false for the empty string and for URLs, false when the filename portion
before an optional hash suffix contains a forbidden character. -/
def isValidWikiLink (s : List Char) : Bool :=
  if s.isEmpty then false
  else if isUrl s then false
  else !((s.takeWhile (fun c => c != '#')).any forbiddenWikiChar)

/-- Modelled from the spec: isValidMarkdownLink from the missing
src/utils.ts: false for the empty string, true for URLs, false for a
non-URL destination containing an unencoded space. -/
def isValidMarkdownLink (s : List Char) : Bool :=
  if s.isEmpty then false
  else if isUrl s then true
  else !(s.any (fun c => c == ' '))

/-- Modelled from the spec: the warning list of validateLinkDestination from
the missing src/utils.ts (spec section 4.5), collected in the fixed order of
the spec's bullets. -/
def validationWarnings (dest : List Char) (wiki : Bool) : List LinkWarning :=
  let w1 : List LinkWarning :=
      if wiki && isUrl dest then
        [⟨("Valid URL detected but Wiki Link format selected. Wiki links cannot link to external URLs.".toList), Severity.error⟩]
      else []
    let w2 : List LinkWarning :=
      if wiki && (dest.takeWhile (fun c => c != '#')).any forbiddenWikiChar then
        [⟨("Destination contains characters forbidden in wiki filenames.".toList), Severity.error⟩]
      else []
    let w3 : List LinkWarning :=
      if !wiki && dest.any (fun c => c == ' ') then
        [⟨("Destination contains unencoded spaces.".toList), Severity.caution⟩]
      else []
    let w4 : List LinkWarning :=
      if isAlmostUrl dest && !isUrl dest then
        [⟨("Destination looks like a URL but may have typos.".toList), Severity.caution⟩]
      else []
    let w5 : List LinkWarning :=
      if decide (500 < dest.length) then
        [⟨("Destination is very long.".toList), Severity.caution⟩]
      else []
  w1 ++ w2 ++ w3 ++ w4 ++ w5

/-- Modelled from the spec: the result assembly of validateLinkDestination:
an empty destination is valid with no warnings; otherwise isValid is the
absence of an error-severity warning and the destination field is
highlighted when any warning is present. -/
def validateLinkDestination (dest text : List Char) (wiki : Bool) : ValidationResult :=
  if dest.isEmpty then ⟨true, [], false, false⟩
  else
    ⟨!((validationWarnings dest wiki).any (fun w => decide (w.severity = Severity.error))),
      validationWarnings dest wiki, !(validationWarnings dest wiki).isEmpty, false⟩

-- ===========================================================================
-- Helper lemmas
-- ===========================================================================

/-- A true startsEnc is exactly one of the two encoded-sequence shapes. -/
theorem startsEnc_eq_true_iff (cs : List Char) :
    startsEnc cs = true ↔
      (∃ r, cs = '%' :: '2' :: '0' :: r) ∨ (∃ r, cs = '%' :: '5' :: 'E' :: r) := by
  constructor
  · intro h
    rw [startsEnc.eq_def] at h
    split at h
    · exact Or.inl ⟨_, rfl⟩
    · exact Or.inr ⟨_, rfl⟩
    · cases h
  · rintro (⟨r, rfl⟩ | ⟨r, rfl⟩) <;> rfl

/-- A false startsEnc is the absence of both encoded-sequence shapes. -/
theorem startsEnc_eq_false_iff (cs : List Char) :
    startsEnc cs = false ↔
      (∀ r, cs ≠ '%' :: '2' :: '0' :: r) ∧ (∀ r, cs ≠ '%' :: '5' :: 'E' :: r) := by
  rw [← Bool.not_eq_true, startsEnc_eq_true_iff]
  push_neg
  simp [not_or]

/-- Decoding steps over a head that does not begin an encoded sequence. -/
theorem percentDecode_cons_of_not_enc (c : Char) (xs : List Char)
    (h : startsEnc (c :: xs) = false) :
    percentDecode (c :: xs) = c :: percentDecode xs := by
  rw [percentDecode.eq_def]
  split
  · rename_i r heq
    rw [heq] at h
    exact absurd h (by rw [show startsEnc ('%' :: '2' :: '0' :: r) = true from rfl]; simp)
  · rename_i r heq
    rw [heq] at h
    exact absurd h (by rw [show startsEnc ('%' :: '5' :: 'E' :: r) = true from rfl]; simp)
  · rename_i c' rest' heq
    rw [List.cons.injEq] at heq
    rw [heq.1, heq.2]
  · rename_i heq
    cases heq

/-- If the percent-encoded form begins with two plain characters, so did the
input (plain meaning not space, caret or percent). -/
theorem percentEncode_cons_cons (a b : Char) (rest r : List Char)
    (ha1 : a ≠ ' ') (ha2 : a ≠ '^') (ha3 : a ≠ '%') (hb3 : b ≠ '%')
    (h : percentEncode rest = a :: b :: r) : ∃ r2, rest = a :: b :: r2 := by
  rcases rest with _ | ⟨d, rr⟩
  · simp [percentEncode] at h
  · by_cases hd1 : d = ' '
    · subst hd1
      rw [show percentEncode (' ' :: rr) = '%' :: '2' :: '0' :: percentEncode rr by
        simp [percentEncode, encodeWikiChar]] at h
      simp only [List.cons.injEq] at h
      exact absurd h.1.symm ha3
    · by_cases hd2 : d = '^'
      · subst hd2
        rw [show percentEncode ('^' :: rr) = '%' :: '5' :: 'E' :: percentEncode rr by
          simp [percentEncode, encodeWikiChar]] at h
        simp only [List.cons.injEq] at h
        exact absurd h.1.symm ha3
      · rw [show percentEncode (d :: rr) = d :: percentEncode rr by
          simp [percentEncode, encodeWikiChar, hd1, hd2]] at h
        simp only [List.cons.injEq] at h
        obtain ⟨rfl, h⟩ := h
        rcases rr with _ | ⟨e, r2⟩
        · simp [percentEncode] at h
        · by_cases he1 : e = ' '
          · subst he1
            rw [show percentEncode (' ' :: r2) = '%' :: '2' :: '0' :: percentEncode r2 by
              simp [percentEncode, encodeWikiChar]] at h
            simp only [List.cons.injEq] at h
            exact absurd h.1.symm hb3
          · by_cases he2 : e = '^'
            · subst he2
              rw [show percentEncode ('^' :: r2) = '%' :: '5' :: 'E' :: percentEncode r2 by
                simp [percentEncode, encodeWikiChar]] at h
              simp only [List.cons.injEq] at h
              exact absurd h.1.symm hb3
            · rw [show percentEncode (e :: r2) = e :: percentEncode r2 by
                simp [percentEncode, encodeWikiChar, he1, he2]] at h
              simp only [List.cons.injEq] at h
              exact ⟨r2, by rw [h.1]⟩

/-- Percent-encoding cannot create an encoded sequence right after a percent
that did not begin one already. -/
theorem startsEnc_percent_percentEncode (rest : List Char)
    (h : startsEnc ('%' :: rest) = false) :
    startsEnc ('%' :: percentEncode rest) = false := by
  rw [startsEnc_eq_false_iff] at h ⊢
  constructor
  · intro r heq
    simp only [List.cons.injEq, true_and] at heq
    obtain ⟨r2, hr2⟩ := percentEncode_cons_cons '2' '0' rest r
      (by decide) (by decide) (by decide) (by decide) heq
    exact h.1 r2 (by rw [hr2])
  · intro r heq
    simp only [List.cons.injEq, true_and] at heq
    obtain ⟨r2, hr2⟩ := percentEncode_cons_cons '5' 'E' rest r
      (by decide) (by decide) (by decide) (by decide) heq
    exact h.2 r2 (by rw [hr2])

/-- Round trip of the codec on strings without encoded sequences. -/
theorem percentDecode_percentEncode (cs : List Char) (h : hasEncSeq cs = false) :
    percentDecode (percentEncode cs) = cs := by
  induction cs with
  | nil => rfl
  | cons c rest ih =>
      rw [hasEncSeq, Bool.or_eq_false_iff] at h
      obtain ⟨hse, htail⟩ := h
      by_cases hc1 : c = ' '
      · subst hc1
        rw [show percentEncode (' ' :: rest) = '%' :: '2' :: '0' :: percentEncode rest by
          simp [percentEncode, encodeWikiChar]]
        rw [show percentDecode ('%' :: '2' :: '0' :: percentEncode rest) =
          ' ' :: percentDecode (percentEncode rest) from rfl]
        rw [ih htail]
      · by_cases hc2 : c = '^'
        · subst hc2
          rw [show percentEncode ('^' :: rest) = '%' :: '5' :: 'E' :: percentEncode rest by
            simp [percentEncode, encodeWikiChar]]
          rw [show percentDecode ('%' :: '5' :: 'E' :: percentEncode rest) =
            '^' :: percentDecode (percentEncode rest) from rfl]
          rw [ih htail]
        · rw [show percentEncode (c :: rest) = c :: percentEncode rest by
            simp [percentEncode, encodeWikiChar, hc1, hc2]]
          by_cases hc3 : c = '%'
          · subst hc3
            rw [percentDecode_cons_of_not_enc _ _ (startsEnc_percent_percentEncode rest hse)]
            rw [ih htail]
          · rw [percentDecode_cons_of_not_enc _ _ (by
              rw [startsEnc_eq_false_iff]
              constructor <;> intro r heq <;>
                simp only [List.cons.injEq] at heq <;> exact hc3 heq.1)]
            rw [ih htail]

/-- Trimming a list of whitespace characters gives the empty list. -/
theorem trimChars_all_space (s : List Char) (h : ∀ c ∈ s, isSpaceChar c = true) :
    trimChars s = [] := by
  have hd : s.dropWhile isSpaceChar = [] := List.dropWhile_eq_nil_iff.mpr h
  simp [trimChars, hd]

/-- No markdown-link match begins at a whitespace character. -/
theorem mdMatchAt_space (c : Char) (rest : List Char) (h : isSpaceChar c = true) :
    mdMatchAt (c :: rest) = none := by
  have hc : c = ' ' ∨ c = '\t' ∨ c = '\n' ∨ c = '\r' := by
    simp only [isSpaceChar, Bool.or_eq_true, beq_iff_eq] at h
    tauto
  rcases hc with rfl | rfl | rfl | rfl <;> rfl

/-- No wiki-link match begins at a whitespace character. -/
theorem wikiMatchAt_space (c : Char) (rest : List Char) (h : isSpaceChar c = true) :
    wikiMatchAt (c :: rest) = none := by
  have hc : c = ' ' ∨ c = '\t' ∨ c = '\n' ∨ c = '\r' := by
    simp only [isSpaceChar, Bool.or_eq_true, beq_iff_eq] at h
    tauto
  rcases hc with rfl | rfl | rfl | rfl <;> rfl

/-- No URL token begins at a whitespace character. -/
theorem urlTokAt_space (c : Char) (rest : List Char) (h : isSpaceChar c = true) :
    urlTokAt (c :: rest) = none := by
  have hc : c = ' ' ∨ c = '\t' ∨ c = '\n' ∨ c = '\r' := by
    simp only [isSpaceChar, Bool.or_eq_true, beq_iff_eq] at h
    tauto
  rcases hc with rfl | rfl | rfl | rfl <;> rfl

/-- The markdown scan of an all-whitespace line finds nothing. -/
theorem mdScanAux_space (fuel i : Nat) (s : List Char)
    (h : ∀ c ∈ s, isSpaceChar c = true) : mdScanAux fuel i s = [] := by
  induction fuel generalizing i s with
  | zero => rfl
  | succ n ih =>
      rcases s with _ | ⟨c, rest⟩
      · rfl
      · rw [mdScanAux, mdMatchAt_space c rest (h c (by simp))]
        exact ih (i + 1) rest (fun d hd => h d (by simp [hd]))

/-- The wiki scan of an all-whitespace line finds nothing. -/
theorem wikiScanAux_space (fuel i : Nat) (s : List Char)
    (h : ∀ c ∈ s, isSpaceChar c = true) : wikiScanAux fuel i s = [] := by
  induction fuel generalizing i s with
  | zero => rfl
  | succ n ih =>
      rcases s with _ | ⟨c, rest⟩
      · rfl
      · rw [wikiScanAux, wikiMatchAt_space c rest (h c (by simp))]
        exact ih (i + 1) rest (fun d hd => h d (by simp [hd]))

/-- The URL scan of an all-whitespace line finds nothing. -/
theorem urlScanAux_space (fuel i : Nat) (s : List Char)
    (h : ∀ c ∈ s, isSpaceChar c = true) : urlScanAux fuel i s = [] := by
  induction fuel generalizing i s with
  | zero => rfl
  | succ n ih =>
      rcases s with _ | ⟨c, rest⟩
      · rfl
      · rw [urlScanAux, urlTokAt_space c rest (h c (by simp))]
        exact ih (i + 1) rest (fun d hd => h d (by simp [hd]))

-- ===========================================================================
-- Claim theorems
-- ===========================================================================

/-- C1: the new-link synthesizer determineLinkFromContext applies the six
precedence rules in order, first match winning.  (1) A selection that is
itself a URL gives text equal to the trimmed selection, destination equal to
its normalization, markdown format, shouldSelectText, and a notice exactly
when normalization changed the string.  (2) A non-empty non-URL selection
gives text equal to the selection with the destination from the clipboard:
normalized markdown when the clipboard is a URL, else the clipboard verbatim
as a wiki destination.  (3) With no selection but a URL at the cursor, text
and destination both equal the normalized cursor URL, markdown format,
shouldSelectText, and the range is the URL span in the line rather than the
cursor point.  (4) With no selection and no cursor URL, a clipboard string
parsing as a whole wiki or markdown link supplies text, destination and
isWiki directly with no normalization.  (5) A bare-URL clipboard gives text
and destination equal to its normalization, markdown, shouldSelectText.
(6) Otherwise text is empty and the clipboard becomes a wiki destination. -/
theorem claim_C1_newLinkPrecedence (ctx : LinkContextInput) :
    (isUrl ctx.selection = true →
      determineLinkFromContext ctx =
        ⟨trimChars ctx.selection, normalizeUrl (trimChars ctx.selection), false,
          ctx.cursorCh, ctx.cursorCh, true,
          convNotice (trimChars ctx.selection) (normalizeUrl (trimChars ctx.selection))⟩) ∧
    (isUrl ctx.selection = false → ctx.selection.isEmpty = false →
      (isUrl ctx.clipboardText = true →
        determineLinkFromContext ctx =
          ⟨ctx.selection, normalizeUrl ctx.clipboardText, false, ctx.cursorCh, ctx.cursorCh,
            false, convNotice ctx.clipboardText (normalizeUrl ctx.clipboardText)⟩) ∧
      (isUrl ctx.clipboardText = false →
        determineLinkFromContext ctx =
          ⟨ctx.selection, ctx.clipboardText, true, ctx.cursorCh, ctx.cursorCh, false, none⟩)) ∧
    (∀ u t, isUrl ctx.selection = false → ctx.selection.isEmpty = true →
      ctx.cursorUrl = some u → urlSpanAtCursor ctx.line ctx.cursorCh = some t →
      determineLinkFromContext ctx =
        ⟨normalizeUrl u, normalizeUrl u, false, t.start, t.start + t.len, true,
          convNotice (trimChars u) (normalizeUrl u)⟩) ∧
    (∀ pl, isUrl ctx.selection = false → ctx.selection.isEmpty = true →
      ctx.cursorUrl = none → parseClipboardLink ctx.clipboardText = some pl →
      determineLinkFromContext ctx =
        ⟨pl.text, pl.destination, pl.isWiki, ctx.cursorCh, ctx.cursorCh, false, none⟩) ∧
    (isUrl ctx.selection = false → ctx.selection.isEmpty = true →
      ctx.cursorUrl = none → parseClipboardLink ctx.clipboardText = none →
      isUrl ctx.clipboardText = true →
      determineLinkFromContext ctx =
        ⟨normalizeUrl ctx.clipboardText, normalizeUrl ctx.clipboardText, false,
          ctx.cursorCh, ctx.cursorCh, true,
          convNotice ctx.clipboardText (normalizeUrl ctx.clipboardText)⟩) ∧
    (isUrl ctx.selection = false → ctx.selection.isEmpty = true →
      ctx.cursorUrl = none → parseClipboardLink ctx.clipboardText = none →
      isUrl ctx.clipboardText = false →
      determineLinkFromContext ctx =
        ⟨[], ctx.clipboardText, true, ctx.cursorCh, ctx.cursorCh, false, none⟩) := by
  refine ⟨?_, ?_, ?_, ?_, ?_, ?_⟩
  · intro h1
    unfold determineLinkFromContext
    rw [if_pos h1]
  · intro h1 h2
    constructor
    · intro h3
      unfold determineLinkFromContext
      rw [if_neg (by simp [h1]), if_pos (by simp [h2]), if_pos h3]
    · intro h3
      unfold determineLinkFromContext
      rw [if_neg (by simp [h1]), if_pos (by simp [h2]), if_neg (by simp [h3])]
  · intro u t h1 h2 h3 h4
    unfold determineLinkFromContext
    rw [if_neg (by simp [h1]), if_neg (by simp [h2]), h3, h4]
  · intro pl h1 h2 h3 h4
    unfold determineLinkFromContext
    rw [if_neg (by simp [h1]), if_neg (by simp [h2]), h3, h4]
  · intro h1 h2 h3 h4 h5
    unfold determineLinkFromContext
    rw [if_neg (by simp [h1]), if_neg (by simp [h2]), h3, h4, if_pos h5]
  · intro h1 h2 h3 h4 h5
    unfold determineLinkFromContext
    rw [if_neg (by simp [h1]), if_neg (by simp [h2]), h3, h4, if_neg (by simp [h5])]

/-- Witness for C1: rule one on the URL selection scenario of the spec
(already-normalized URL, hence no notice), and rule three on a line with the
URL span at offsets six to twenty-five. -/
theorem claim_C1_newLinkPrecedence_witness :
    determineLinkFromContext ⟨("http://example.com".toList), [], none, [], 0⟩ =
      ⟨("http://example.com".toList), ("http://example.com".toList), false, 0, 0, true, none⟩ ∧
    determineLinkFromContext ⟨[], [], some ("https://example.com".toList),
        ("Visit https://example.com today".toList), 10⟩ =
      ⟨("https://example.com".toList), ("https://example.com".toList), false, 6, 25, true,
        none⟩ := by
  constructor
  · exact ((claim_C1_newLinkPrecedence
      ⟨("http://example.com".toList), [], none, [], 0⟩).1 (by decide)).trans (by decide)
  · exact ((claim_C1_newLinkPrecedence
      ⟨[], [], some ("https://example.com".toList),
        ("Visit https://example.com today".toList), 10⟩).2.2.1
      ("https://example.com".toList) ⟨6, 19⟩
      (by decide) (by decide) rfl (by decide)).trans (by decide)

/-- C2: detectLinkAtCursor scans the line left-to-right for non-overlapping
markdown-link matches first and returns the first match whose span contains
the cursor inclusively, with isWiki false and enteredFromLeft exactly when
the cursor is at most one past the match start; only when no markdown match
contains the cursor does it scan wiki-link matches, with isWiki true and
enteredFromLeft exactly when the cursor is at most two past the match start;
it returns none exactly when the cursor is contained in no match of either
scan. -/
theorem claim_C2_detectCharacterization (line : List Char) (ch : Nat) :
    (∀ r, detectLinkAtCursor line ch = some r →
      (r.link.isWiki = false →
        ∃ t, (mdScan line).find? (containsCh ch) = some t ∧
          t.start ≤ ch ∧ ch ≤ t.start + t.len ∧
          r.start = t.start ∧ r.endPos = t.start + t.len ∧
          r.link.text = t.text ∧ r.link.destination = t.dest ∧ r.link.isEmbed = t.isEmbed ∧
          r.enteredFromLeft = decide (ch ≤ t.start + 1)) ∧
      (r.link.isWiki = true →
        (mdScan line).find? (containsCh ch) = none ∧
        ∃ t, (wikiScan line).find? (containsCh ch) = some t ∧
          t.start ≤ ch ∧ ch ≤ t.start + t.len ∧
          r.start = t.start ∧ r.endPos = t.start + t.len ∧
          r.link.text = t.text ∧ r.link.destination = t.dest ∧ r.link.isEmbed = t.isEmbed ∧
          r.enteredFromLeft = decide (ch ≤ t.start + 2))) ∧
    (detectLinkAtCursor line ch = none ↔
      (∀ t ∈ mdScan line, ¬(t.start ≤ ch ∧ ch ≤ t.start + t.len)) ∧
      (∀ t ∈ wikiScan line, ¬(t.start ≤ ch ∧ ch ≤ t.start + t.len))) := by
  constructor
  · intro r hr
    constructor
    · intro hwiki
      unfold detectLinkAtCursor at hr
      cases hmd : (mdScan line).find? (containsCh ch) with
      | some t =>
          rw [hmd] at hr
          have hp := List.find?_some hmd
          simp only [containsCh, Bool.and_eq_true, decide_eq_true_eq] at hp
          refine ⟨t, rfl, hp.1, hp.2, ?_⟩
          cases hr
          exact ⟨rfl, rfl, rfl, rfl, rfl, rfl⟩
      | none =>
          rw [hmd] at hr
          cases hwk : (wikiScan line).find? (containsCh ch) with
          | some t => rw [hwk] at hr; cases hr; simp at hwiki
          | none => rw [hwk] at hr; cases hr
    · intro hwiki
      unfold detectLinkAtCursor at hr
      cases hmd : (mdScan line).find? (containsCh ch) with
      | some t => rw [hmd] at hr; cases hr; simp at hwiki
      | none =>
          rw [hmd] at hr
          cases hwk : (wikiScan line).find? (containsCh ch) with
          | none => rw [hwk] at hr; cases hr
          | some t =>
              rw [hwk] at hr
              have hp := List.find?_some hwk
              simp only [containsCh, Bool.and_eq_true, decide_eq_true_eq] at hp
              refine ⟨rfl, t, rfl, hp.1, hp.2, ?_⟩
              cases hr
              exact ⟨rfl, rfl, rfl, rfl, rfl, rfl⟩
  · unfold detectLinkAtCursor
    cases hmd : (mdScan line).find? (containsCh ch) with
    | some t =>
        constructor
        · intro hr; cases hr
        · intro hmw
          have hp := List.find?_some hmd
          have ht := List.mem_of_find?_eq_some hmd
          simp only [containsCh, Bool.and_eq_true, decide_eq_true_eq] at hp
          exact absurd hp (hmw.1 t ht)
    | none =>
        cases hwk : (wikiScan line).find? (containsCh ch) with
        | some t =>
            constructor
            · intro hr; cases hr
            · intro hmw
              have hp := List.find?_some hwk
              have ht := List.mem_of_find?_eq_some hwk
              simp only [containsCh, Bool.and_eq_true, decide_eq_true_eq] at hp
              exact absurd hp (hmw.2 t ht)
        | none =>
            constructor
            · intro _
              constructor
              · intro t ht
                have hp := List.find?_eq_none.mp hmd t ht
                simp only [containsCh, Bool.and_eq_true, decide_eq_true_eq] at hp
                exact hp
              · intro t ht
                have hp := List.find?_eq_none.mp hwk t ht
                simp only [containsCh, Bool.and_eq_true, decide_eq_true_eq] at hp
                exact hp
            · intro _; rfl

/-- Witness for C2: a plain-text line detects nothing, and on a line whose
only link is a wiki link the markdown scan finds no containing match. -/
theorem claim_C2_detectCharacterization_witness :
    detectLinkAtCursor ("This is plain text".toList) 10 = none ∧
    (mdScan ("This is [[MyNote]] here".toList)).find? (containsCh 12) = none := by
  constructor
  · exact (claim_C2_detectCharacterization ("This is plain text".toList) 10).2.mpr (by decide)
  · exact ((claim_C2_detectCharacterization ("This is [[MyNote]] here".toList) 12).1
      ⟨⟨("MyNote".toList), ("MyNote".toList), true, false⟩, 8, 18, false⟩
      (by decide) |>.2 rfl).1

/-- C3: determineSkipPosition classifies the cursor as on the left side
exactly when twice the cursor offset is at most start plus end (the integer
form of cursorCh at most the span midpoint), a cursor exactly at the
midpoint resolving to left; on the line Check-space-wiki-my-note-space-for-
more a cursor at offset eight skips rightward to line zero, offset eighteen,
and a cursor at offset fifteen skips leftward to line zero, offset five,
both skipped, for every line count and previous-line length; and the cursor
offsets at which a link is detected on that line are exactly the half-open
interval from six to eighteen. -/
theorem claim_C3_sideAndScenarios :
    (∀ s e c : Nat, skipIsOnLeftSide s e c = true ↔ 2 * c ≤ s + e) ∧
    (∀ s e c : Nat, 2 * c = s + e → skipIsOnLeftSide s e c = true) ∧
    (∀ lc pl : Nat,
      determineSkipPosition ⟨0, 8, ("Check [[my-note]] for more".toList), lc, pl⟩ =
        ⟨(0, 18), true⟩) ∧
    (∀ lc pl : Nat,
      determineSkipPosition ⟨0, 15, ("Check [[my-note]] for more".toList), lc, pl⟩ =
        ⟨(0, 5), true⟩) ∧
    (∀ ch : Nat,
      (detectLinkAtCursor ("Check [[my-note]] for more".toList) ch).isSome = true ↔
        6 ≤ ch ∧ ch < 18) := by
  refine ⟨?_, ?_, ?_, ?_, ?_⟩
  · intro s e c
    simp [skipIsOnLeftSide]
  · intro s e c h
    simp [skipIsOnLeftSide]
    omega
  · intro lc pl
    rfl
  · intro lc pl
    rfl
  · intro ch
    have hmd : mdScan ("Check [[my-note]] for more".toList) = [] := by rfl
    have hwk : wikiScan ("Check [[my-note]] for more".toList) =
        [⟨6, 11, false, ("my-note".toList), ("my-note".toList)⟩] := by rfl
    unfold detectLinkAtCursor
    rw [hmd, hwk, List.find?_nil, List.find?_singleton]
    simp only [containsCh, Bool.and_eq_true, decide_eq_true_eq]
    by_cases h1 : 6 ≤ ch ∧ ch ≤ 17
    · rw [if_pos h1]
      simp only [Option.isSome_some]
      constructor
      · intro _; omega
      · intro _; trivial
    · rw [if_neg h1]
      simp only [Option.isSome_none]
      constructor
      · intro h; cases h
      · intro h; exact absurd (by omega : 6 ≤ ch ∧ ch ≤ 17) h1

/-- Witness for C3: the midpoint tie at span six to eighteen with cursor
twelve resolves to left, and the first scenario instantiated at line count
ten and previous length twenty. -/
theorem claim_C3_sideAndScenarios_witness :
    skipIsOnLeftSide 6 18 12 = true ∧
    determineSkipPosition ⟨0, 8, ("Check [[my-note]] for more".toList), 10, 20⟩ =
      ⟨(0, 18), true⟩ :=
  ⟨claim_C3_sideAndScenarios.2.1 6 18 12 (by decide),
    claim_C3_sideAndScenarios.2.2.1 10 20⟩

/-- C4: for a detected link whose span does not cover the whole line,
determineSkipPosition skips as follows, always with skipped true: from the
left side, to end plus one when that is within the line, else to the start
of the next line when one exists, else to start minus one when start is
positive, else to end; from the right side, to start minus one when start is
positive, else to the end of the previous line when one exists, else to end
plus one when within the line, else to offset zero. -/
theorem claim_C4_skipNormalCase (ctx : SkipLinkContext) (r : LinkAtCursor)
    (h : detectLinkAtCursor ctx.lineText ctx.cursorCh = some r)
    (hnw : ¬(r.start = 0 ∧ ctx.lineText.length ≤ r.endPos)) :
    (skipIsOnLeftSide r.start r.endPos ctx.cursorCh = true →
      (r.endPos < ctx.lineText.length →
        determineSkipPosition ctx = ⟨(ctx.cursorLine, r.endPos + 1), true⟩) ∧
      (¬ r.endPos < ctx.lineText.length → ctx.cursorLine + 1 < ctx.lineCount →
        determineSkipPosition ctx = ⟨(ctx.cursorLine + 1, 0), true⟩) ∧
      (¬ r.endPos < ctx.lineText.length → ¬ ctx.cursorLine + 1 < ctx.lineCount → 0 < r.start →
        determineSkipPosition ctx = ⟨(ctx.cursorLine, r.start - 1), true⟩) ∧
      (¬ r.endPos < ctx.lineText.length → ¬ ctx.cursorLine + 1 < ctx.lineCount →
        ¬ 0 < r.start →
        determineSkipPosition ctx = ⟨(ctx.cursorLine, r.endPos), true⟩)) ∧
    (skipIsOnLeftSide r.start r.endPos ctx.cursorCh = false →
      (0 < r.start →
        determineSkipPosition ctx = ⟨(ctx.cursorLine, r.start - 1), true⟩) ∧
      (¬ 0 < r.start → 0 < ctx.cursorLine →
        determineSkipPosition ctx = ⟨(ctx.cursorLine - 1, ctx.prevLineLength), true⟩) ∧
      (¬ 0 < r.start → ¬ 0 < ctx.cursorLine → r.endPos < ctx.lineText.length →
        determineSkipPosition ctx = ⟨(ctx.cursorLine, r.endPos + 1), true⟩) ∧
      (¬ 0 < r.start → ¬ 0 < ctx.cursorLine → ¬ r.endPos < ctx.lineText.length →
        determineSkipPosition ctx = ⟨(ctx.cursorLine, 0), true⟩)) := by
  unfold determineSkipPosition
  rw [h]
  simp only [if_neg hnw]
  constructor
  · intro hL
    rw [hL]
    refine ⟨?_, ?_, ?_, ?_⟩
    · intro h1; rw [if_pos rfl, if_pos h1]
    · intro h1 h2; rw [if_pos rfl, if_neg h1, if_pos h2]
    · intro h1 h2 h3; rw [if_pos rfl, if_neg h1, if_neg h2, if_pos h3]
    · intro h1 h2 h3; rw [if_pos rfl, if_neg h1, if_neg h2, if_neg h3]
  · intro hL
    rw [hL]
    refine ⟨?_, ?_, ?_, ?_⟩
    · intro h1; rw [if_neg (by simp), if_pos h1]
    · intro h1 h2; rw [if_neg (by simp), if_neg h1, if_pos h2]
    · intro h1 h2 h3; rw [if_neg (by simp), if_neg h1, if_neg h2, if_pos h3]
    · intro h1 h2 h3; rw [if_neg (by simp), if_neg h1, if_neg h2, if_neg h3]

/-- Witness for C4: left side with the span end inside the line skips to end
plus one. -/
theorem claim_C4_skipNormalCase_witness :
    determineSkipPosition ⟨0, 8, ("Check [[my-note]] for more".toList), 10, 20⟩ =
      ⟨(0, 18), true⟩ :=
  ((claim_C4_skipNormalCase ⟨0, 8, ("Check [[my-note]] for more".toList), 10, 20⟩
      ⟨⟨("my-note".toList), ("my-note".toList), true, false⟩, 6, 17, true⟩
      (by decide) (by decide)).1 (by decide)).1 (by decide)

/-- C5: when the detected link spans the entire line (start zero and end at
least the line length), determineSkipPosition from the left side goes to the
start of the next line if one exists, else to the end of the previous line
if one exists, else stays at the link end; from the right side it is the
mirror: previous line first, else next line, else offset zero; in particular
the line consisting of the wiki link my-note at cursor line three with ten
lines and the cursor on the left side gives line four, offset zero,
skipped. -/
theorem claim_C5_skipWholeLine (ctx : SkipLinkContext) (r : LinkAtCursor)
    (h : detectLinkAtCursor ctx.lineText ctx.cursorCh = some r)
    (hw : r.start = 0 ∧ ctx.lineText.length ≤ r.endPos) :
    ((skipIsOnLeftSide r.start r.endPos ctx.cursorCh = true →
      (ctx.cursorLine + 1 < ctx.lineCount →
        determineSkipPosition ctx = ⟨(ctx.cursorLine + 1, 0), true⟩) ∧
      (¬ ctx.cursorLine + 1 < ctx.lineCount → 0 < ctx.cursorLine →
        determineSkipPosition ctx = ⟨(ctx.cursorLine - 1, ctx.prevLineLength), true⟩) ∧
      (¬ ctx.cursorLine + 1 < ctx.lineCount → ¬ 0 < ctx.cursorLine →
        determineSkipPosition ctx = ⟨(ctx.cursorLine, r.endPos), true⟩)) ∧
    (skipIsOnLeftSide r.start r.endPos ctx.cursorCh = false →
      (0 < ctx.cursorLine →
        determineSkipPosition ctx = ⟨(ctx.cursorLine - 1, ctx.prevLineLength), true⟩) ∧
      (¬ 0 < ctx.cursorLine → ctx.cursorLine + 1 < ctx.lineCount →
        determineSkipPosition ctx = ⟨(ctx.cursorLine + 1, 0), true⟩) ∧
      (¬ 0 < ctx.cursorLine → ¬ ctx.cursorLine + 1 < ctx.lineCount →
        determineSkipPosition ctx = ⟨(ctx.cursorLine, 0), true⟩))) ∧
    (∀ pl : Nat,
      determineSkipPosition ⟨3, 5, ("[[my-note]]".toList), 10, pl⟩ = ⟨(4, 0), true⟩) := by
  constructor
  · unfold determineSkipPosition
    rw [h]
    simp only [if_pos hw]
    constructor
    · intro hL
      rw [hL]
      refine ⟨?_, ?_, ?_⟩
      · intro h1; rw [if_pos rfl, if_pos h1]
      · intro h1 h2; rw [if_pos rfl, if_neg h1, if_pos h2]
      · intro h1 h2; rw [if_pos rfl, if_neg h1, if_neg h2]
    · intro hL
      rw [hL]
      refine ⟨?_, ?_, ?_⟩
      · intro h1; rw [if_neg (by simp), if_pos h1]
      · intro h1 h2; rw [if_neg (by simp), if_neg h1, if_pos h2]
      · intro h1 h2; rw [if_neg (by simp), if_neg h1, if_neg h2]
  · intro pl
    rfl

/-- Witness for C5: the whole-line scenario itself, through the left-side
next-line branch. -/
theorem claim_C5_skipWholeLine_witness :
    determineSkipPosition ⟨3, 5, ("[[my-note]]".toList), 10, 20⟩ = ⟨(4, 0), true⟩ :=
  (((claim_C5_skipWholeLine ⟨3, 5, ("[[my-note]]".toList), 10, 20⟩
      ⟨⟨("my-note".toList), ("my-note".toList), true, false⟩, 0, 11, false⟩
      (by decide) (by decide)).1.1 (by decide)).1 (by decide))

/-- C6: whenever no link is detected at the cursor offset,
determineSkipPosition returns skipped false and the cursor position
unchanged. -/
theorem claim_C6_skipNoLink (ctx : SkipLinkContext)
    (h : detectLinkAtCursor ctx.lineText ctx.cursorCh = none) :
    determineSkipPosition ctx = ⟨(ctx.cursorLine, ctx.cursorCh), false⟩ := by
  unfold determineSkipPosition
  rw [h]

/-- Witness for C6: a plain-text line leaves the cursor in place. -/
theorem claim_C6_skipNoLink_witness :
    determineSkipPosition ⟨0, 10, ("Plain text with no links".toList), 10, 20⟩ =
      ⟨(0, 10), false⟩ :=
  claim_C6_skipNoLink ⟨0, 10, ("Plain text with no links".toList), 10, 20⟩ (by decide)

/-- C7 counterexample: the string www-dot-space-x is not a URL and contains
no encoded sequence, yet markdownToWiki of wikiToMarkdown of it is none
rather than the original string, because percent-encoding its space yields a
string the URL classifier accepts. -/
theorem claim_C7_codecLaws_counterexample :
    isUrl ("www. x".toList) = false ∧
    hasEncSeq ("www. x".toList) = false ∧
    markdownToWiki (wikiToMarkdown ("www. x".toList)) = none ∧
    markdownToWiki (wikiToMarkdown ("www. x".toList)) ≠ some ("www. x".toList) := by
  decide

/-- C7 (amended): markdownToWiki returns none, not the original string, for
every URL; wikiToMarkdown leaves every URL unchanged; and for any non-URL
string without encoded sequences whose percent-encoded form is not itself
classified as a URL, markdownToWiki exactly inverts wikiToMarkdown. -/
theorem claim_C7_codecLaws (s : List Char) :
    (isUrl s = true → markdownToWiki s = none ∧ wikiToMarkdown s = s) ∧
    (isUrl s = false → hasEncSeq s = false → isUrl (wikiToMarkdown s) = false →
      markdownToWiki (wikiToMarkdown s) = some s) := by
  constructor
  · intro h
    constructor
    · rw [markdownToWiki, if_pos h]
    · rw [wikiToMarkdown, if_pos h]
  · intro h1 h2 h3
    rw [wikiToMarkdown, if_neg (by simp [h1])] at h3 ⊢
    rw [markdownToWiki, if_neg (by simp [h3])]
    rw [percentDecode_percentEncode s h2]

/-- Witness for C7: the round trip on My-space-Note and the URL exclusion on
a https URL. -/
theorem claim_C7_codecLaws_witness :
    markdownToWiki (wikiToMarkdown ("My Note".toList)) = some ("My Note".toList) ∧
    markdownToWiki ("https://example.com".toList) = none ∧
    wikiToMarkdown ("https://example.com".toList) = ("https://example.com".toList) :=
  ⟨(claim_C7_codecLaws ("My Note".toList)).2 (by decide) (by decide) (by decide),
    ((claim_C7_codecLaws ("https://example.com".toList)).1 (by decide)).1,
    ((claim_C7_codecLaws ("https://example.com".toList)).1 (by decide)).2⟩

/-- C8: validateLinkDestination accepts an empty destination as valid with
an empty warning list; for a wiki destination that the URL classifier
accepts it is invalid with an error-severity warning and destination
highlighting; and in general it is invalid exactly when at least one
error-severity warning is present, so caution-severity warnings alone never
make the result invalid. -/
theorem claim_C8_validate (dest text : List Char) (wiki : Bool) :
    (dest = [] → validateLinkDestination dest text wiki = ⟨true, [], false, false⟩) ∧
    (wiki = true → isUrl dest = true →
      (validateLinkDestination dest text wiki).isValid = false ∧
      (∃ w ∈ (validateLinkDestination dest text wiki).warnings,
        w.severity = Severity.error) ∧
      (validateLinkDestination dest text wiki).shouldHighlightDest = true) ∧
    ((validateLinkDestination dest text wiki).isValid = false ↔
      ∃ w ∈ (validateLinkDestination dest text wiki).warnings,
        w.severity = Severity.error) := by
  refine ⟨?_, ?_, ?_⟩
  · intro h
    subst h
    rfl
  · intro hw hurl
    subst hw
    have hne : dest.isEmpty = false := by
      cases dest with
      | nil => exact absurd hurl (by decide)
      | cons c r => rfl
    refine ⟨?_, ?_, ?_⟩ <;> simp [validateLinkDestination, validationWarnings, hne, hurl]
  · cases hE : dest.isEmpty with
    | true => simp [validateLinkDestination, hE]
    | false =>
        unfold validateLinkDestination
        rw [hE]
        simp only [Bool.false_eq_true, if_false, Bool.not_eq_false', List.any_eq_true,
          decide_eq_true_eq]

/-- Witness for C8: an empty destination is valid with no warnings, and a
wiki destination that is a URL is invalid. -/
theorem claim_C8_validate_witness :
    validateLinkDestination [] ("text".toList) true = ⟨true, [], false, false⟩ ∧
    (validateLinkDestination ("https://example.com".toList) ("text".toList) true).isValid =
      false :=
  ⟨(claim_C8_validate [] ("text".toList) true).1 rfl,
    ((claim_C8_validate ("https://example.com".toList) ("text".toList) true).2.1
      rfl (by decide)).1⟩

/-- C9: determineSkipPosition is total and honest about its branches: on
every input the cursor is left exactly in place when no skip is reported,
and a reported skip implies a detected link; and on every empty or
whitespace-only string the classification and parsing functions return
their normal no-link, no-match, valid-empty results: the URL classifiers
reject it, the parsers return none, and the detectors find nothing at any
offset. -/
theorem claim_C9_totalAndDegenerate :
    (∀ ctx : SkipLinkContext,
      ((determineSkipPosition ctx).skipped = false →
        (determineSkipPosition ctx).position = (ctx.cursorLine, ctx.cursorCh)) ∧
      ((determineSkipPosition ctx).skipped = true →
        detectLinkAtCursor ctx.lineText ctx.cursorCh ≠ none)) ∧
    (∀ s : List Char, (∀ c ∈ s, isSpaceChar c = true) →
      isUrl s = false ∧ isAlmostUrl s = false ∧ parseWikiLink s = none ∧
      parseMarkdownLink s = none ∧ parseClipboardLink s = none ∧
      (∀ ch : Nat, detectLinkAtCursor s ch = none ∧ urlAtCursor s ch = none)) := by
  constructor
  · intro ctx
    cases hd : detectLinkAtCursor ctx.lineText ctx.cursorCh with
    | none =>
        have he : determineSkipPosition ctx = ⟨(ctx.cursorLine, ctx.cursorCh), false⟩ := by
          unfold determineSkipPosition; rw [hd]
        rw [he]
        exact ⟨fun _ => rfl, fun hsk => by simp at hsk⟩
    | some r =>
        have hT : (determineSkipPosition ctx).skipped = true := by
          unfold determineSkipPosition
          rw [hd]
          dsimp only
          split_ifs <;> rfl
        exact ⟨fun hsk => absurd hT (by rw [hsk]; simp),
          fun _ hn => Option.noConfusion hn⟩
  · intro s h
    have ht : trimChars s = [] := trimChars_all_space s h
    refine ⟨?_, ?_, ?_, ?_, ?_, ?_⟩
    · simp [isUrl, ht, noWs, startsWithCI]
    · simp [isAlmostUrl, ht, startsWithCI]
    · rw [parseWikiLink.eq_def, ht]
    · rw [parseMarkdownLink.eq_def, ht]
    · rw [parseClipboardLink]
      rw [parseMarkdownLink.eq_def, ht, parseWikiLink.eq_def, ht]
      rfl
    · intro ch
      constructor
      · rw [detectLinkAtCursor]
        rw [show mdScan s = [] from mdScanAux_space _ 0 s h]
        rw [show wikiScan s = [] from wikiScanAux_space _ 0 s h]
        rfl
      · rw [urlAtCursor, urlSpanAtCursor]
        rw [show urlScan s = [] from urlScanAux_space _ 0 s h]
        rfl

/-- Witness for C9: the whitespace-only string of two spaces, and the
unchanged position on a plain-text skip context. -/
theorem claim_C9_totalAndDegenerate_witness :
    isUrl ("  ".toList) = false ∧
    detectLinkAtCursor ("  ".toList) 1 = none ∧
    (determineSkipPosition ⟨0, 10, ("Plain text with no links".toList), 10, 20⟩).position =
      (0, 10) := by
  have hws := claim_C9_totalAndDegenerate.2 ("  ".toList) (by decide)
  exact ⟨hws.1, (hws.2.2.2.2.2 1).1,
    (claim_C9_totalAndDegenerate.1
      ⟨0, 10, ("Plain text with no links".toList), 10, 20⟩).1 (by decide)⟩

/-- C10: every LinkOperation produced by determineLinkOperation or
determineLinkOperationWithSelection satisfies the output invariant: when
isNewLink is false, shouldSelectText is false and conversionNotice is none;
when isNewLink is true, enteredFromLeft is true and the link is not an
embed. -/
theorem claim_C10_operationInvariant (ctx : EditorContext)
    (ctx2 : EditorContextWithSelection) :
    (((determineLinkOperation ctx).isNewLink = false →
        (determineLinkOperation ctx).shouldSelectText = false ∧
        (determineLinkOperation ctx).conversionNotice = none) ∧
      ((determineLinkOperation ctx).isNewLink = true →
        (determineLinkOperation ctx).enteredFromLeft = true ∧
        (determineLinkOperation ctx).link.isEmbed = false)) ∧
    (((determineLinkOperationWithSelection ctx2).isNewLink = false →
        (determineLinkOperationWithSelection ctx2).shouldSelectText = false ∧
        (determineLinkOperationWithSelection ctx2).conversionNotice = none) ∧
      ((determineLinkOperationWithSelection ctx2).isNewLink = true →
        (determineLinkOperationWithSelection ctx2).enteredFromLeft = true ∧
        (determineLinkOperationWithSelection ctx2).link.isEmbed = false)) := by
  constructor
  · unfold determineLinkOperation
    cases hd : detectLinkAtCursor ctx.lineText ctx.cursorCh with
    | some l => exact ⟨fun _ => ⟨rfl, rfl⟩, fun hn => by simp [createEditOperation] at hn⟩
    | none => exact ⟨fun hn => by simp [createNewLinkOperation] at hn, fun _ => ⟨rfl, rfl⟩⟩
  · unfold determineLinkOperationWithSelection
    cases hd : detectLinkAtCursor ctx2.lineText ctx2.cursorCh with
    | some l => exact ⟨fun _ => ⟨rfl, rfl⟩, fun hn => by simp [createEditOperation] at hn⟩
    | none => exact ⟨fun hn => by simp at hn, fun _ => ⟨rfl, rfl⟩⟩

/-- Witness for C10: a new link on a plain line has enteredFromLeft and no
embed, and editing an existing link never selects the text field. -/
theorem claim_C10_operationInvariant_witness :
    (determineLinkOperation ⟨0, 6, ("Plain text line".toList), [], []⟩).enteredFromLeft =
      true ∧
    (determineLinkOperation
      ⟨0, 15, ("Check out [[my-note|My Note]] for more info".toList), [], []⟩).shouldSelectText =
      false :=
  ⟨((claim_C10_operationInvariant ⟨0, 6, ("Plain text line".toList), [], []⟩
      ⟨⟨0, 5, ("Plain text".toList), [], []⟩, none, none, false⟩).1.2 (by decide)).1,
    ((claim_C10_operationInvariant
      ⟨0, 15, ("Check out [[my-note|My Note]] for more info".toList), [], []⟩
      ⟨⟨0, 5, ("Plain text".toList), [], []⟩, none, none, false⟩).1.1 (by decide)).1⟩
